import Mathlib

/-!
Verification of the DataConnectorsCodeGen generator core.

The Python source manipulates JSON-like dictionaries (parsed OpenAPI and
mapping documents).  We embed those values as the inductive type `JValue`
and translate the generator functions over it.  Python dictionaries are
embedded as association lists in declaration order (CPython dictionaries
iterate in insertion order); Python sets are embedded as `Finset`s, and a
materialisation (`list(s)`) is modelled by an explicit listing function,
since the iteration order of a CPython set is not specified.

Inputs on which the Python source would raise an exception (for example a
non-string where the code calls a string method) are outside the scope of
the theorems below; the embedding gives such inputs a harmless default and
the theorems are stated on inputs where both agree.
-/

/-- A JSON value, as produced by `json.load`.  Numbers are restricted to
integers: no claim below depends on floats. -/
inductive JValue where
  | null
  | jbool (b : Bool)
  | jnum (n : Int)
  | jstr (s : String)
  | jarr (elems : List JValue)
  | jobj (fields : List (String × JValue))

namespace JValue

/-- Python `d.get(k)` on a dict (first binding wins; a parsed JSON object
has unique keys). Returns `none` on non-objects (where Python would raise). -/
def get : JValue → String → Option JValue
  | .jobj kvs, k => (kvs.find? (fun p => p.1 = k)).map (fun p => p.2)
  | _, _ => none

/-- Python `d.get(k, default)`. -/
def getD (j : JValue) (k : String) (d : JValue) : JValue := (j.get k).getD d

/-- Python `k in d` (key membership test). -/
def hasKey (j : JValue) (k : String) : Bool := (j.get k).isSome

/-- Python truthiness of a JSON value. -/
def truthy : JValue → Bool
  | .null => false
  | .jbool b => b
  | .jnum n => n ≠ 0
  | .jstr s => s ≠ ""
  | .jarr xs => ¬ xs.isEmpty
  | .jobj kvs => ¬ kvs.isEmpty

/-- The elements of a JSON array (the code only concatenates and iterates
values that are lists). -/
def items : JValue → List JValue
  | .jarr xs => xs
  | _ => []

/-- The fields of a JSON object. -/
def fieldsOf : JValue → List (String × JValue)
  | .jobj kvs => kvs
  | _ => []

def isObj : JValue → Bool
  | .jobj _ => true
  | _ => false

def isArr : JValue → Bool
  | .jarr _ => true
  | _ => false

def isStr : JValue → Bool
  | .jstr _ => true
  | _ => false

def isBool : JValue → Bool
  | .jbool _ => true
  | _ => false

def asStr : JValue → Option String
  | .jstr s => some s
  | _ => none

/-- Equality test against a string literal (Python `value == 'lit'`,
which is false whenever the value is not a string). -/
def eqStr : JValue → String → Bool
  | .jstr s, t => s = t
  | _, _ => false

end JValue

/-- Python truthiness of `d.get(k)`-style optional values. -/
def optTruthy : Option JValue → Bool
  | some v => v.truthy
  | none => false

/-- Equality of an optional value with a string literal
(`d.get(k) == 'lit'`; `None == 'lit'` is false). -/
def optEqStr : Option JValue → String → Bool
  | some v, t => v.eqStr t
  | none, _ => false

/-- Truthiness of an optional string (`None` and `""` are falsy). -/
def strTruthy : Option String → Bool
  | some s => s ≠ ""
  | none => false

theorem JValue.get_sizeOf_lt {j v : JValue} {k : String} (h : j.get k = some v) :
    sizeOf v < sizeOf j := by
  rcases j with _ | b | n | s | xs | kvs
  case null => exact absurd h (by simp [JValue.get])
  case jbool => exact absurd h (by simp [JValue.get])
  case jnum => exact absurd h (by simp [JValue.get])
  case jstr => exact absurd h (by simp [JValue.get])
  case jarr => exact absurd h (by simp [JValue.get])
  simp only [JValue.get] at h
  rw [Option.map_eq_some'] at h
  obtain ⟨p, hfind, hv⟩ := h
  have hmem : p ∈ kvs := List.mem_of_find?_eq_some hfind
  have h1 : sizeOf p < sizeOf kvs := List.sizeOf_lt_of_mem hmem
  have h2 : sizeOf v ≤ sizeOf p := by
    obtain ⟨a, b⟩ := p
    simp only at hv
    subst hv
    simp only [Prod.mk.sizeOf_spec]
    omega
  have h3 : sizeOf (JValue.jobj kvs) = 1 + sizeOf kvs := by
    simp only [JValue.jobj.sizeOf_spec]
  omega

theorem JValue.get_some_big {j v : JValue} {k : String} (h : j.get k = some v) :
    2 < sizeOf j := by
  rcases j with _ | b | n | s | xs | kvs
  case null => exact absurd h (by simp [JValue.get])
  case jbool => exact absurd h (by simp [JValue.get])
  case jnum => exact absurd h (by simp [JValue.get])
  case jstr => exact absurd h (by simp [JValue.get])
  case jarr => exact absurd h (by simp [JValue.get])
  simp only [JValue.get] at h
  rw [Option.map_eq_some'] at h
  obtain ⟨p, hfind, -⟩ := h
  have hmem : p ∈ kvs := List.mem_of_find?_eq_some hfind
  have h1 : sizeOf p < sizeOf kvs := List.sizeOf_lt_of_mem hmem
  have h2 : 1 ≤ sizeOf p := by
    obtain ⟨a, b⟩ := p
    simp only [Prod.mk.sizeOf_spec]
    omega
  have h3 : sizeOf (JValue.jobj kvs) = 1 + sizeOf kvs := by
    simp only [JValue.jobj.sizeOf_spec]
  omega

/-- Characters kept by `to_java_class_name`'s first regex: `[a-zA-Z0-9_\s-]`
(`\s` taken on ASCII input). -/
def isClassNameKeepChar (c : Char) : Bool :=
  c.isAlphanum || c = '_' || c = ' ' || c = '\t' || c = '\n' || c = '\r' ||
  c = '\x0b' || c = '\x0c' || c = '-'

/-- A separator collapsed to a space by `to_java_class_name`'s second regex
(`[_\s-]+`). -/
def isClassNameSepChar (c : Char) : Bool :=
  c = '_' || c = ' ' || c = '\t' || c = '\n' || c = '\r' ||
  c = '\x0b' || c = '\x0c' || c = '-'

/-- Python `str.capitalize`: first character upper-cased, the rest
lower-cased (ASCII). -/
def pyCapitalize : List Char → List Char
  | [] => []
  | c :: cs => c.toUpper :: cs.map Char.toLower

/-- Function `to_java_class_name` from the Java generator module.  Dropping the
invalid characters, mapping every separator to a space, then splitting on
spaces and dropping empty words is exactly the source's collapse of
separator runs followed by `strip` and `split`. -/
def to_java_class_name (name : String) : String :=
  if name = "" then "UnnamedModel"
  else
    let cleaned := name.toList.filter isClassNameKeepChar
    let spaced := cleaned.map (fun c => if isClassNameSepChar c then ' ' else c)
    let words := (spaced.splitOn ' ').filter (fun w => ¬ w.isEmpty)
    String.join (words.map (fun w => String.mk (pyCapitalize w)))

/-- Function `to_java_variable_name` from the Java generator module. -/
def to_java_variable_name (name : String) : String :=
  let className := to_java_class_name name
  match className.toList with
  | [] => "unnamedVar"
  | c :: cs => String.mk (c.toLower :: cs)

/-- Python `ref.split('/')[-1]`. -/
def lastSlashSegment (s : String) : String :=
  String.mk ((s.toList.splitOn '/').getLastD [])

example : to_java_class_name "user-profile" = "UserProfile" := by decide
example : to_java_class_name "User" = "User" := by decide
example : to_java_variable_name "user id" = "userId" := by decide
example : lastSlashSegment "#/components/schemas/User" = "User" := by decide

theorem getD_eqStr_get_isSome {j : JValue} {k s d : String}
    (h : (j.getD k (.jstr d)).eqStr s = true) (hne : s ≠ d) :
    ∃ v, j.get k = some v := by
  unfold JValue.getD at h
  cases hg : j.get k with
  | some v => exact ⟨v, rfl⟩
  | none =>
    rw [hg] at h
    simp only [Option.getD_none, JValue.eqStr, decide_eq_true_eq] at h
    exact absurd h.symm hne

theorem sizeOf_jobj_nil : sizeOf (JValue.jobj []) = 2 := by
  simp

/-- Function `get_java_type` from the Java generator module: maps an OpenAPI
property fragment to a simple Java type name, accumulating the imports the
type needs.  The Python function reads the fragment into the locals
`openapi_type` and `openapi_format` and mutates the `imports` set; here the
accessors are inlined and the updated set is returned alongside the type.
A truthy non-string `$ref` (on which the source would raise at
`ref.split`) is not modelled. -/
def get_java_type (schemaProp : JValue) (modelPackage : Option String)
    (imports : Finset String) : String × Finset String :=
  if (schemaProp.getD "type" (.jstr "object")).eqStr "string" then
    if optEqStr (schemaProp.get "format") "date" then
      ("LocalDate", insert "java.time.LocalDate" imports)
    else if optEqStr (schemaProp.get "format") "date-time" then
      ("OffsetDateTime", insert "java.time.OffsetDateTime" imports)
    else if optEqStr (schemaProp.get "format") "binary" ||
        optEqStr (schemaProp.get "format") "byte" then
      ("byte[]", imports)
    else
      ("String", imports)
  else if (schemaProp.getD "type" (.jstr "object")).eqStr "integer" then
    ((if optEqStr (schemaProp.get "format") "int64" then "Long" else "Integer"), imports)
  else if (schemaProp.getD "type" (.jstr "object")).eqStr "number" then
    ((if optEqStr (schemaProp.get "format") "float" then "Float" else "Double"), imports)
  else if (schemaProp.getD "type" (.jstr "object")).eqStr "boolean" then
    ("Boolean", imports)
  else if hArr : (schemaProp.getD "type" (.jstr "object")).eqStr "array" then
    let withList := insert "java.util.List" imports
    let r := get_java_type (schemaProp.getD "items" (.jobj [])) modelPackage withList
    ("List<" ++ r.1 ++ ">", r.2)
  else if (schemaProp.getD "type" (.jstr "object")).eqStr "object" then
    if strTruthy ((schemaProp.get "$ref").bind JValue.asStr) then
      let javaType :=
        to_java_class_name
          (lastSlashSegment (((schemaProp.get "$ref").bind JValue.asStr).getD ""))
      match modelPackage with
      | some mp => (javaType, insert (mp ++ "." ++ javaType) imports)
      | none => (javaType, imports)
    else
      match hAp : schemaProp.get "additionalProperties" with
      | some (.jobj kvs) =>
        let withMap := insert "java.util.Map" imports
        let r := get_java_type (.jobj kvs) modelPackage withMap
        ("Map<String, " ++ r.1 ++ ">", r.2)
      | _ => ("Map<String, Object>", insert "java.util.Map" imports)
  else
    ("Object", imports)
termination_by sizeOf schemaProp
decreasing_by
  · cases hg : schemaProp.get "items" with
    | some v =>
      simp only [JValue.getD, hg, Option.getD_some]
      exact JValue.get_sizeOf_lt hg
    | none =>
      simp only [JValue.getD, hg, Option.getD_none]
      obtain ⟨v, hv⟩ := getD_eqStr_get_isSome hArr (by decide)
      have := JValue.get_some_big hv
      rw [sizeOf_jobj_nil]
      omega
  · exact JValue.get_sizeOf_lt hAp

/-- Python `str.upper()` (ASCII), as a kernel-computable function over the
character data. -/
def pyUpper (s : String) : String := String.mk (s.toList.map Char.toUpper)

/-- Python `str.lower()` (ASCII). -/
def pyLower (s : String) : String := String.mk (s.toList.map Char.toLower)

def listStartsWith : List Char → List Char → Bool
  | _, [] => true
  | [], _ :: _ => false
  | a :: as, b :: bs => a = b && listStartsWith as bs

/-- Python `str.replace(pat, rep)` (all non-overlapping occurrences, left
to right) on character lists.  The fuel argument makes the recursion
structural; it is always called with the list's length, which suffices
because a match consumes at least one character.  The empty-pattern case
(unused by the generator) is not modelled. -/
def pyReplaceAux (pat rep : List Char) : Nat → List Char → List Char
  | _, [] => []
  | 0, s => s
  | Nat.succ n, c :: cs =>
    if pat ≠ [] ∧ listStartsWith (c :: cs) pat = true then
      rep ++ pyReplaceAux pat rep n ((c :: cs).drop pat.length)
    else c :: pyReplaceAux pat rep n cs

/-- Python `str.replace`. -/
def pyReplace (s pat rep : String) : String :=
  String.mk (pyReplaceAux pat.toList rep.toList s.toList.length s.toList)

/-- The HTTP-method keys recognised by the generator
(`['GET', 'POST', 'PUT', 'PATCH', 'DELETE']`). -/
def httpMethodKeys : List String := ["GET", "POST", "PUT", "PATCH", "DELETE"]

/-- The method set computed for one path item in `_determine_operations`:
`{k.upper() for k in path_item.keys() if k.upper() in [...]}`. -/
def pathItemMethods (pathItem : List (String × JValue)) : Finset String :=
  ((pathItem.map (fun p => pyUpper p.1)).filter (fun k => k ∈ httpMethodKeys)).toFinset

/-- The body of the `for path, path_item in paths.items()` loop of
`_determine_operations`. -/
def determineOperationsStep (ops : Finset String)
    (pathItem : List (String × JValue)) : Finset String :=
  let ops1 := if "GET" ∈ pathItemMethods pathItem then insert "Search" ops else ops
  let ops2 := if "POST" ∈ pathItemMethods pathItem then insert "Insertion" ops1 else ops1
  let ops3 :=
    if "PUT" ∈ pathItemMethods pathItem ∨ "PATCH" ∈ pathItemMethods pathItem then
      insert "Modification" ops2
    else ops2
  if "DELETE" ∈ pathItemMethods pathItem then insert "Deletion" ops3 else ops3

/-- Function `_determine_operations` from the Java generator module: the derived
capability set.  `paths` is the OpenAPI path table in declaration order. -/
def _determine_operations (paths : List (String × List (String × JValue)))
    (schemaExtractionEnabled : Bool) : Finset String :=
  let operations :=
    paths.foldl (fun ops p => determineOperationsStep ops p.2)
      ({"TestConnect"} : Finset String)
  if schemaExtractionEnabled then insert "SchemaExtraction" operations else operations

/-- The per-path condition under which `determineOperationsStep` inserts `x`. -/
def stepCond (x : String) (pathItem : List (String × JValue)) : Prop :=
  (x = "Search" ∧ "GET" ∈ pathItemMethods pathItem) ∨
  (x = "Insertion" ∧ "POST" ∈ pathItemMethods pathItem) ∨
  (x = "Modification" ∧
    ("PUT" ∈ pathItemMethods pathItem ∨ "PATCH" ∈ pathItemMethods pathItem)) ∨
  (x = "Deletion" ∧ "DELETE" ∈ pathItemMethods pathItem)

theorem mem_insert_ite (c : Prop) [Decidable c] (a x : String) (s : Finset String) :
    (x ∈ (if c then insert a s else s)) ↔ (c ∧ x = a) ∨ x ∈ s := by
  split
  case isTrue h => simp only [Finset.mem_insert]; tauto
  case isFalse h => tauto

theorem mem_determineOperationsStep (x : String) (ops : Finset String)
    (pathItem : List (String × JValue)) :
    x ∈ determineOperationsStep ops pathItem ↔ x ∈ ops ∨ stepCond x pathItem := by
  unfold determineOperationsStep stepCond
  rw [mem_insert_ite, mem_insert_ite, mem_insert_ite, mem_insert_ite]
  tauto

theorem mem_determineOperationsFold (x : String) (acc : Finset String)
    (paths : List (String × List (String × JValue))) :
    x ∈ paths.foldl (fun ops p => determineOperationsStep ops p.2) acc ↔
      x ∈ acc ∨ ∃ p ∈ paths, stepCond x p.2 := by
  induction paths generalizing acc with
  | nil => simp
  | cons q qs ih =>
    rw [List.foldl_cons, ih, mem_determineOperationsStep, List.exists_mem_cons_iff]
    tauto

theorem mem_pathItemMethods (m : String) (hm : m ∈ httpMethodKeys)
    (pathItem : List (String × JValue)) :
    m ∈ pathItemMethods pathItem ↔ ∃ kv ∈ pathItem, pyUpper kv.1 = m := by
  simp only [pathItemMethods, List.mem_toFinset, List.mem_filter, List.mem_map,
    decide_eq_true_eq]
  constructor
  · rintro ⟨⟨kv, hkv, hup⟩, -⟩
    exact ⟨kv, hkv, hup⟩
  · rintro ⟨kv, hkv, hup⟩
    exact ⟨⟨kv, hkv, hup⟩, by simpa [hup] using hm⟩

theorem mem_determine_operations (x : String)
    (paths : List (String × List (String × JValue))) (flag : Bool) :
    x ∈ _determine_operations paths flag ↔
      (flag = true ∧ x = "SchemaExtraction") ∨ x = "TestConnect" ∨
        ∃ p ∈ paths, stepCond x p.2 := by
  unfold _determine_operations
  rw [mem_insert_ite, mem_determineOperationsFold]
  simp only [Finset.mem_singleton]

/-- Claim C1: the derived capability set contains `Search` iff some path has
a GET method key, `Insertion` iff some path has POST, `Modification` iff
some path has PUT or PATCH, `Deletion` iff some path has DELETE; it always
contains `TestConnect`; and it contains `SchemaExtraction` iff schema
extraction was requested by the caller. -/
theorem determine_operations_capability_set
    (paths : List (String × List (String × JValue))) (flag : Bool) :
    ("Search" ∈ _determine_operations paths flag ↔
       ∃ p ∈ paths, ∃ kv ∈ p.2, pyUpper kv.1 = "GET") ∧
    ("Insertion" ∈ _determine_operations paths flag ↔
       ∃ p ∈ paths, ∃ kv ∈ p.2, pyUpper kv.1 = "POST") ∧
    ("Modification" ∈ _determine_operations paths flag ↔
       ∃ p ∈ paths, ∃ kv ∈ p.2, (pyUpper kv.1 = "PUT" ∨ pyUpper kv.1 = "PATCH")) ∧
    ("Deletion" ∈ _determine_operations paths flag ↔
       ∃ p ∈ paths, ∃ kv ∈ p.2, pyUpper kv.1 = "DELETE") ∧
    "TestConnect" ∈ _determine_operations paths flag ∧
    ("SchemaExtraction" ∈ _determine_operations paths flag ↔ flag = true) := by
  refine ⟨?_, ?_, ?_, ?_, ?_, ?_⟩
  · simp [mem_determine_operations, stepCond, mem_pathItemMethods "GET" (by decide)]
  · simp [mem_determine_operations, stepCond, mem_pathItemMethods "POST" (by decide)]
  · simp only [mem_determine_operations, stepCond,
      mem_pathItemMethods "PUT" (by decide), mem_pathItemMethods "PATCH" (by decide),
      String.reduceEq, false_and, and_false, false_or, or_false, true_and, and_true]
    constructor
    · rintro ⟨p, hp, h⟩
      rcases h with ⟨kv, hkv, hup⟩ | ⟨kv, hkv, hup⟩
      · exact ⟨p, hp, kv, hkv, Or.inl hup⟩
      · exact ⟨p, hp, kv, hkv, Or.inr hup⟩
    · rintro ⟨p, hp, kv, hkv, hup | hup⟩
      · exact ⟨p, hp, Or.inl ⟨kv, hkv, hup⟩⟩
      · exact ⟨p, hp, Or.inr ⟨kv, hkv, hup⟩⟩
  · simp [mem_determine_operations, stepCond, mem_pathItemMethods "DELETE" (by decide)]
  · simp [mem_determine_operations]
  · simp [mem_determine_operations, stepCond]

/-- Collapse an explicit JSON `null` to `none`: `d.get(k)` in Python returns
`None` both for a missing key and for a stored `null`, and the ORX lookup
keys treat the two identically. -/
def pyOpt : Option JValue → Option JValue
  | some .null => none
  | v => v

/-- Table `ORX_TYPE_MAP` from the schema generator module, as the lookup
function `(openapi_type, openapi_format) -> orx_type`.  A `none` format is
the Python key `(type, None)`; any value outside the listed strings misses
every key, exactly as the Python tuple lookup does. -/
def ORX_TYPE_MAP : JValue → Option JValue → Option String
  | .jstr "string", none => some "string"
  | .jstr "integer", none => some "integer"
  | .jstr "number", none => some "double"
  | .jstr "boolean", none => some "boolean"
  | .jstr "array", none => some "string"
  | .jstr "object", none => some "string"
  | .jstr "string", some (.jstr "date-time") => some "generalizedTime"
  | .jstr "string", some (.jstr "date") => some "generalizedTime"
  | .jstr "string", some (.jstr "byte") => some "binary"
  | .jstr "string", some (.jstr "binary") => some "binary"
  | .jstr "integer", some (.jstr "int32") => some "integer"
  | .jstr "integer", some (.jstr "int64") => some "long"
  | .jstr "number", some (.jstr "float") => some "double"
  | .jstr "number", some (.jstr "double") => some "double"
  | _, _ => none

def DEFAULT_ORX_TYPE : String := "string"

/-- One attribute entry of a mapping document's `attributes` array, with
exactly the keys the generator reads (absent key = `none`). -/
structure AttrMapping where
  ldapName : Option String := none
  jsonPath : Option String := none
  openApiPropertyName : Option String := none
  typeOverride : Option String := none
  readOnly : Option Bool := none
  required : Option Bool := none
deriving DecidableEq

/-- One object-class entry of a mapping document, with exactly the keys the
schema generator reads. -/
structure OCMapping where
  openApiSchemaRef : Option String := none
  openApiSchemaName : Option String := none
  primaryKeyLdapAttribute : Option String := none
  attributes : List AttrMapping := []
deriving DecidableEq

/-- Function `_infer_attribute_type` from the schema generator module. -/
def _infer_attribute_type (propDetails : JValue) (attrMapping : AttrMapping) : String :=
  if strTruthy attrMapping.typeOverride then (attrMapping.typeOverride).getD ""
  else if (propDetails.getD "type" (.jstr "string")).eqStr "array" then
    let itemsDetails := propDetails.getD "items" (.jobj [])
    ((ORX_TYPE_MAP (itemsDetails.getD "type" (.jstr "string"))
        (pyOpt (itemsDetails.get "format"))).getD
      ((ORX_TYPE_MAP (itemsDetails.getD "type" (.jstr "string")) none).getD
        DEFAULT_ORX_TYPE))
  else
    match ORX_TYPE_MAP (propDetails.getD "type" (.jstr "string"))
        (pyOpt (propDetails.get "format")) with
    | some t => t
    | none =>
      match ORX_TYPE_MAP (propDetails.getD "type" (.jstr "string")) none with
      | some t => t
      | none => DEFAULT_ORX_TYPE

/-- One attribute record of the rendering context built by
`prepare_schema_context`. -/
structure SchemaAttr where
  ldapName : String
  attrType : String
  primaryKey : Bool
  multiValued : Bool
  readOnly : Option Bool
  required : JValue

/-- One object-class record of the rendering context. -/
structure OCContext where
  ldapName : String
  attributes : List SchemaAttr

/-- Function `_get_openapi_schema_details` from the schema generator module. -/
def _get_openapi_schema_details (schemas : List (String × JValue))
    (schemaRef : String) : Option JValue :=
  if schemaRef = "" ∨
      (¬ schemaRef.startsWith "#/components/schemas/" ∧
       ¬ schemaRef.startsWith "#/definitions/") then
    none
  else
    (schemas.find? (fun p => p.1 = lastSlashSegment schemaRef)).map (fun p => p.2)

/-- The source-schema lookup at the top of the `prepare_schema_context`
loop (the `openApiSchemaRef` / `openApiSchemaName` branches; `none` is any
`continue`). -/
def resolveSourceSchema (schemas : List (String × JValue)) (oc : OCMapping) :
    Option JValue :=
  if strTruthy oc.openApiSchemaRef then
    _get_openapi_schema_details schemas (oc.openApiSchemaRef.getD "")
  else if strTruthy oc.openApiSchemaName then
    (schemas.find? (fun p => p.1 = oc.openApiSchemaName.getD "")).map (fun p => p.2)
  else none

/-- The locator resolution for one attribute: the `jsonPath` branch goes
through `_get_openapi_definition_by_path`, whose JSONPath evaluation lives
in an external library and is abstracted as `resolver`; the
`openApiPropertyName` branch is the direct property-table lookup.
`JSONPATH_SUPPORTED` is `True` (the module is importable only with the
library installed). -/
def resolveAttrProp (sourceSchema : JValue)
    (resolver : JValue → String → Option JValue) (a : AttrMapping) :
    Option JValue :=
  if strTruthy a.jsonPath then resolver sourceSchema (a.jsonPath.getD "")
  else if strTruthy a.openApiPropertyName then
    (sourceSchema.getD "properties" (.jobj [])).get (a.openApiPropertyName.getD "")
  else none

/-- The body of the `for attr_mapping in mapped_attributes_list` loop of
`prepare_schema_context`; `none` means the entry was skipped. -/
def buildSchemaAttr (primaryKeyLdapAttr : Option String) (sourceSchema : JValue)
    (resolver : JValue → String → Option JValue) (a : AttrMapping) :
    Option SchemaAttr :=
  if ¬ strTruthy a.ldapName then none
  else if ¬ strTruthy a.jsonPath ∧ ¬ strTruthy a.openApiPropertyName then none
  else
    let propDetails := (resolveAttrProp sourceSchema resolver a).getD (.jobj [])
    some
      { ldapName := a.ldapName.getD ""
        attrType := _infer_attribute_type propDetails a
        primaryKey := a.ldapName = primaryKeyLdapAttr
        multiValued := optEqStr (propDetails.get "type") "array"
        readOnly := a.readOnly
        required :=
          match a.required with
          | some b => .jbool b
          | none => propDetails.getD "required" (.jbool false) }

/-- The body of the `for ldap_oc_name in defined_ldap_ocs` loop of
`prepare_schema_context`; `none` means this object class was skipped. -/
def processObjectClass (schemas : List (String × JValue))
    (resolver : JValue → String → Option JValue)
    (ldapOcName : String) (oc : OCMapping) : Option OCContext :=
  match resolveSourceSchema schemas oc with
  | none => none
  | some sourceSchema =>
    if ¬ sourceSchema.truthy then none
    else
      let attributes := oc.attributes.filterMap
        (buildSchemaAttr oc.primaryKeyLdapAttribute sourceSchema resolver)
      if ¬ strTruthy oc.primaryKeyLdapAttribute ∨
          ¬ attributes.any (fun a => a.primaryKey) then
        if strTruthy oc.primaryKeyLdapAttribute then none
        else some ⟨ldapOcName, attributes⟩
      else some ⟨ldapOcName, attributes⟩

/-- Function `prepare_schema_context` from the schema generator module:
`mappingOcs` is the mapping document's `objectClasses` table in
declaration order; the result is the `object_classes` list of the
rendering context. -/
def prepare_schema_context (schemas : List (String × JValue))
    (resolver : JValue → String → Option JValue)
    (mappingOcs : List (String × OCMapping)) : List OCContext :=
  mappingOcs.filterMap (fun p => processObjectClass schemas resolver p.1 p.2)

theorem processObjectClass_eq_none_of_pk_unresolved
    (schemas : List (String × JValue)) (resolver : JValue → String → Option JValue)
    (name : String) (oc : OCMapping)
    (hpk : strTruthy oc.primaryKeyLdapAttribute = true)
    (hno : ∀ ss : JValue, resolveSourceSchema schemas oc = some ss →
      ∀ sa ∈ oc.attributes.filterMap
          (buildSchemaAttr oc.primaryKeyLdapAttribute ss resolver),
        sa.primaryKey = false) :
    processObjectClass schemas resolver name oc = none := by
  unfold processObjectClass
  cases hss : resolveSourceSchema schemas oc with
  | none => rfl
  | some ss =>
    by_cases ht : ss.truthy
    · have hany : (oc.attributes.filterMap
          (buildSchemaAttr oc.primaryKeyLdapAttribute ss resolver)).any
            (fun a => a.primaryKey) = false := by
        rw [List.any_eq_false]
        intro sa hsa
        simp [hno ss hss sa hsa]
      simp [ht, hany, hpk]
    · simp [ht]

theorem processObjectClass_eq_some_of_no_pk
    (schemas : List (String × JValue)) (resolver : JValue → String → Option JValue)
    (name : String) (oc : OCMapping) (ss : JValue)
    (hpk : strTruthy oc.primaryKeyLdapAttribute = false)
    (hss : resolveSourceSchema schemas oc = some ss) (ht : ss.truthy = true) :
    processObjectClass schemas resolver name oc =
      some ⟨name, oc.attributes.filterMap
        (buildSchemaAttr oc.primaryKeyLdapAttribute ss resolver)⟩ := by
  unfold processObjectClass
  rw [hss]
  simp [ht, hpk]

/-- Claim C3: an object class whose declared primary-key name matches no
attribute in the resolved attribute list is excluded from the generated
schema context while the surrounding run continues unchanged (every other
object class is processed as if the dropped one were absent); an object
class that declares no primary key at all is kept in the output, provided
its source schema resolves. -/
theorem prepare_schema_context_primary_key_policy
    (schemas : List (String × JValue)) (resolver : JValue → String → Option JValue)
    (l1 l2 : List (String × OCMapping)) (name : String) (oc : OCMapping) :
    (strTruthy oc.primaryKeyLdapAttribute = true →
      (∀ ss : JValue, resolveSourceSchema schemas oc = some ss →
        ∀ sa ∈ oc.attributes.filterMap
            (buildSchemaAttr oc.primaryKeyLdapAttribute ss resolver),
          sa.primaryKey = false) →
      prepare_schema_context schemas resolver (l1 ++ (name, oc) :: l2) =
        prepare_schema_context schemas resolver l1 ++
          prepare_schema_context schemas resolver l2) ∧
    (strTruthy oc.primaryKeyLdapAttribute = false →
      ∀ ss : JValue, resolveSourceSchema schemas oc = some ss → ss.truthy = true →
      prepare_schema_context schemas resolver (l1 ++ (name, oc) :: l2) =
        prepare_schema_context schemas resolver l1 ++
          (⟨name, oc.attributes.filterMap
              (buildSchemaAttr oc.primaryKeyLdapAttribute ss resolver)⟩ : OCContext) ::
            prepare_schema_context schemas resolver l2) := by
  constructor
  · intro hpk hno
    unfold prepare_schema_context
    rw [List.filterMap_append, List.filterMap_cons]
    rw [processObjectClass_eq_none_of_pk_unresolved schemas resolver name oc hpk hno]
  · intro hpk ss hss ht
    unfold prepare_schema_context
    rw [List.filterMap_append, List.filterMap_cons]
    rw [processObjectClass_eq_some_of_no_pk schemas resolver name oc ss hpk hss ht]

/-- A small OpenAPI schema value used by the concrete instances below. -/
def userVal : JValue :=
  .jobj [("properties", .jobj [
    ("id", .jobj [("type", .jstr "string")]),
    ("email", .jobj [("type", .jstr "string"), ("readOnly", .jbool true)])])]

/-- Schema table with the single schema `User`. -/
def userSchemaTable : List (String × JValue) := [("User", userVal)]

/-- A JSONPath resolver that never resolves (no attribute below uses
`jsonPath`, so the choice is irrelevant). -/
def nullResolver : JValue → String → Option JValue := fun _ _ => none

/-- An object class with no declared primary key. -/
def ocNoPk : OCMapping :=
  { openApiSchemaName := some "User",
    attributes := [{ ldapName := some "cn", openApiPropertyName := some "id" }] }

/-- An object class whose declared primary key `uid` matches no attribute. -/
def ocBadPk : OCMapping :=
  { openApiSchemaName := some "User", primaryKeyLdapAttribute := some "uid",
    attributes := [{ ldapName := some "cn", openApiPropertyName := some "id" }] }

theorem prepare_schema_context_primary_key_policy_witness :
    (prepare_schema_context userSchemaTable nullResolver
        ([] ++ ("bad", ocBadPk) :: []) =
      prepare_schema_context userSchemaTable nullResolver [] ++
        prepare_schema_context userSchemaTable nullResolver []) ∧
    (prepare_schema_context userSchemaTable nullResolver
        ([] ++ ("a", ocNoPk) :: []) =
      prepare_schema_context userSchemaTable nullResolver [] ++
        (⟨"a", ocNoPk.attributes.filterMap
            (buildSchemaAttr ocNoPk.primaryKeyLdapAttribute userVal nullResolver)⟩ :
          OCContext) ::
          prepare_schema_context userSchemaTable nullResolver []) := by
  constructor
  · apply (prepare_schema_context_primary_key_policy userSchemaTable nullResolver
      [] [] "bad" ocBadPk).1
    · rfl
    · intro ss hss sa hsa
      have hC : resolveSourceSchema userSchemaTable ocBadPk = some userVal := rfl
      rw [hC] at hss
      have hses := Option.some.inj hss
      subst hses
      have hfm : ocBadPk.attributes.filterMap
          (buildSchemaAttr ocBadPk.primaryKeyLdapAttribute userVal nullResolver) =
          [{ ldapName := "cn", attrType := "string", primaryKey := false,
             multiValued := false, readOnly := none, required := .jbool false }] := rfl
      rw [hfm] at hsa
      rw [List.mem_singleton] at hsa
      subst hsa
      rfl
  · exact (prepare_schema_context_primary_key_policy userSchemaTable nullResolver
      [] [] "a" ocNoPk).2 rfl userVal rfl rfl

theorem buildSchemaAttr_some_inv {pk : Option String} {ss : JValue}
    {r : JValue → String → Option JValue} {a : AttrMapping} {sa : SchemaAttr}
    (h : buildSchemaAttr pk ss r a = some sa) :
    strTruthy a.ldapName = true ∧
    sa.ldapName = a.ldapName.getD "" ∧
    sa.primaryKey = decide (a.ldapName = pk) ∧
    sa.readOnly = a.readOnly ∧
    sa.attrType = _infer_attribute_type ((resolveAttrProp ss r a).getD (.jobj [])) a ∧
    sa.required = (match a.required with
      | some b => JValue.jbool b
      | none => ((resolveAttrProp ss r a).getD (.jobj [])).getD "required" (.jbool false)) := by
  unfold buildSchemaAttr at h
  by_cases h1 : strTruthy a.ldapName = true
  · by_cases h2 : (¬ strTruthy a.jsonPath = true ∧ ¬ strTruthy a.openApiPropertyName = true)
    · rw [if_neg (by simp [h1]), if_pos h2] at h
      exact absurd h (by simp)
    · rw [if_neg (by simp [h1]), if_neg h2] at h
      have hs := Option.some.inj h
      subst hs
      exact ⟨h1, rfl, rfl, rfl, rfl, rfl⟩
  · rw [if_pos (by simp [h1])] at h
    exact absurd h (by simp)

theorem processObjectClass_some_inv {schemas : List (String × JValue)}
    {resolver : JValue → String → Option JValue} {name : String}
    {oc : OCMapping} {out : OCContext}
    (h : processObjectClass schemas resolver name oc = some out) :
    ∃ ss, resolveSourceSchema schemas oc = some ss ∧ ss.truthy = true ∧
      out = ⟨name, oc.attributes.filterMap
        (buildSchemaAttr oc.primaryKeyLdapAttribute ss resolver)⟩ ∧
      (strTruthy oc.primaryKeyLdapAttribute = true →
        (oc.attributes.filterMap
          (buildSchemaAttr oc.primaryKeyLdapAttribute ss resolver)).any
            (fun a => a.primaryKey) = true) := by
  unfold processObjectClass at h
  cases hss : resolveSourceSchema schemas oc with
  | none => rw [hss] at h; exact absurd h (by simp)
  | some ss =>
    rw [hss] at h
    dsimp only at h
    cases htb : ss.truthy with
    | false => rw [htb] at h; exact absurd h (by simp)
    | true =>
      rw [htb] at h
      rw [if_neg (by simp)] at h
      cases hpkb : strTruthy oc.primaryKeyLdapAttribute with
      | false =>
        rw [hpkb] at h
        rw [if_pos (Or.inl (by simp)), if_neg (by simp)] at h
        exact ⟨ss, rfl, htb, (Option.some.inj h).symm, fun hh => absurd hh (by simp)⟩
      | true =>
        rw [hpkb] at h
        cases hanyb : (oc.attributes.filterMap
            (buildSchemaAttr oc.primaryKeyLdapAttribute ss resolver)).any
              (fun a => a.primaryKey) with
        | false =>
          rw [hanyb] at h
          rw [if_pos (Or.inr (by simp)), if_pos (by simp)] at h
          exact absurd h (by simp)
        | true =>
          rw [hanyb] at h
          rw [if_neg (by simp)] at h
          exact ⟨ss, rfl, htb, (Option.some.inj h).symm, fun _ => hanyb⟩

/-- The attribute-entry predicate equivalent to "this entry produces a
resolved attribute marked as primary key". -/
def pkEntryPred (pk : Option String) (a : AttrMapping) : Bool :=
  strTruthy a.ldapName &&
    (strTruthy a.jsonPath || strTruthy a.openApiPropertyName) &&
    decide (a.ldapName = pk)

theorem countP_primaryKey_filterMap (pk : Option String) (ss : JValue)
    (r : JValue → String → Option JValue) (l : List AttrMapping) :
    (l.filterMap (buildSchemaAttr pk ss r)).countP (fun sa => sa.primaryKey) =
      l.countP (pkEntryPred pk) := by
  induction l with
  | nil => rfl
  | cons a t ih =>
    rw [List.filterMap_cons, List.countP_cons]
    by_cases h1 : strTruthy a.ldapName = true
    · by_cases h2 : strTruthy a.jsonPath = true ∨ strTruthy a.openApiPropertyName = true
      · have hb : buildSchemaAttr pk ss r a = some
            { ldapName := a.ldapName.getD ""
              attrType := _infer_attribute_type
                ((resolveAttrProp ss r a).getD (.jobj [])) a
              primaryKey := a.ldapName = pk
              multiValued := optEqStr (((resolveAttrProp ss r a).getD (.jobj [])).get "type") "array"
              readOnly := a.readOnly
              required :=
                match a.required with
                | some b => .jbool b
                | none => ((resolveAttrProp ss r a).getD (.jobj [])).getD "required" (.jbool false) } := by
          unfold buildSchemaAttr
          rw [if_neg (by simp [h1]), if_neg (by tauto)]
        rw [hb, List.countP_cons, ih]
        have hp : pkEntryPred pk a = decide (a.ldapName = pk) := by
          unfold pkEntryPred
          rcases h2 with h2 | h2 <;> simp [h1, h2]
        rw [hp]
      · have hb : buildSchemaAttr pk ss r a = none := by
          unfold buildSchemaAttr
          rw [if_neg (by simp [h1]), if_pos (by tauto)]
        rw [hb, ih]
        have hp : pkEntryPred pk a = false := by
          unfold pkEntryPred
          push_neg at h2
          simp [h2.1, h2.2]
        simp [hp]
    · have hb : buildSchemaAttr pk ss r a = none := by
        unfold buildSchemaAttr
        rw [if_pos (by simp [h1])]
      rw [hb, ih]
      have hst : strTruthy a.ldapName = false := by
        revert h1
        cases strTruthy a.ldapName <;> simp
      have hp : pkEntryPred pk a = false := by
        unfold pkEntryPred
        simp [hst]
      simp [hp]

theorem countP_pkEntryPred_le_one {l : List AttrMapping} {pk : Option String}
    (h : (l.map (fun a => a.ldapName)).Nodup) :
    l.countP (pkEntryPred pk) ≤ 1 := by
  induction l with
  | nil => simp
  | cons a t ih =>
    rw [List.map_cons, List.nodup_cons] at h
    rw [List.countP_cons]
    by_cases hpa : pkEntryPred pk a = true
    · have hal : a.ldapName = pk := by
        have := hpa
        unfold pkEntryPred at this
        simp only [Bool.and_eq_true, decide_eq_true_eq] at this
        exact this.2
      have hz : t.countP (pkEntryPred pk) = 0 := by
        rw [List.countP_eq_zero]
        intro b hb hpb
        have hbl : b.ldapName = pk := by
          unfold pkEntryPred at hpb
          simp only [Bool.and_eq_true, decide_eq_true_eq] at hpb
          exact hpb.2
        have hmem : b.ldapName ∈ t.map (fun x => x.ldapName) :=
          List.mem_map_of_mem (fun x => x.ldapName) hb
        rw [hbl, ← hal] at hmem
        exact h.1 hmem
      simp [hz, hpa]
    · have hz : pkEntryPred pk a = false := by
        revert hpa
        cases pkEntryPred pk a <;> simp
      rw [hz]
      simpa using ih h.2

/-- Claim C4 counterexample: an included object class whose mapping lists
two attribute entries with the same `ldapName` equal to the declared
primary key produces two attributes marked `primaryKey = true`, not
exactly one. -/
def ocDupPk : OCMapping :=
  { openApiSchemaName := some "User", primaryKeyLdapAttribute := some "uid",
    attributes := [{ ldapName := some "uid", openApiPropertyName := some "id" },
                   { ldapName := some "uid", openApiPropertyName := some "email" }] }

theorem prepare_schema_context_two_primary_keys_cex :
    (prepare_schema_context userSchemaTable nullResolver [("person", ocDupPk)]).map
      (fun o => o.attributes.countP (fun a => a.primaryKey)) = [2] := rfl

/-- Claim C4 (amended): for every object class included in the schema
context with a (truthy) declared primary key, at least one attribute is
marked `primaryKey = true`, every attribute so marked has `ldapName` equal
to the declared primary-key name, and when the mapping's attribute entries
carry pairwise distinct `ldapName` values there is exactly one such
attribute. -/
theorem processObjectClass_primary_key_marking
    (schemas : List (String × JValue)) (resolver : JValue → String → Option JValue)
    (name : String) (oc : OCMapping) (out : OCContext)
    (h : processObjectClass schemas resolver name oc = some out)
    (hpk : strTruthy oc.primaryKeyLdapAttribute = true) :
    (∀ sa ∈ out.attributes, sa.primaryKey = true →
      some sa.ldapName = oc.primaryKeyLdapAttribute) ∧
    (∃ sa ∈ out.attributes, sa.primaryKey = true) ∧
    ((oc.attributes.map (fun a => a.ldapName)).Nodup →
      out.attributes.countP (fun sa => sa.primaryKey) = 1) := by
  obtain ⟨ss, hss, ht, hout, hany⟩ := processObjectClass_some_inv h
  subst hout
  refine ⟨?_, ?_, ?_⟩
  · intro sa hsa hpk1
    obtain ⟨a, ha, hb⟩ := List.mem_filterMap.mp hsa
    obtain ⟨h1, h2, h3, -⟩ := buildSchemaAttr_some_inv hb
    rw [hpk1] at h3
    have hae : a.ldapName = oc.primaryKeyLdapAttribute :=
      of_decide_eq_true h3.symm
    cases hln : a.ldapName with
    | none => rw [hln] at h1; exact absurd h1 (by simp [strTruthy])
    | some s =>
      rw [hln] at hae h2
      rw [h2, ← hae]
      rfl
  · have := hany hpk
    rw [List.any_eq_true] at this
    obtain ⟨sa, hsa, hp⟩ := this
    exact ⟨sa, hsa, hp⟩
  · intro hnd
    rw [countP_primaryKey_filterMap]
    have hle := @countP_pkEntryPred_le_one oc.attributes oc.primaryKeyLdapAttribute hnd
    have hpos : 0 < (oc.attributes.filterMap
        (buildSchemaAttr oc.primaryKeyLdapAttribute ss resolver)).countP
          (fun sa => sa.primaryKey) := by
      have := hany hpk
      rw [List.any_eq_true] at this
      obtain ⟨sa, hsa, hp⟩ := this
      rw [List.countP_pos_iff]
      exact ⟨sa, hsa, hp⟩
    rw [countP_primaryKey_filterMap] at hpos
    omega

/-- An object class with a resolvable primary key and distinct attribute
names. -/
def ocGoodPk : OCMapping :=
  { openApiSchemaName := some "User", primaryKeyLdapAttribute := some "cn",
    attributes := [{ ldapName := some "cn", openApiPropertyName := some "id" },
                   { ldapName := some "mail", openApiPropertyName := some "email" }] }

/-- The schema-context record computed for `ocGoodPk`. -/
def ocGoodPkOut : OCContext :=
  ⟨"p", [{ ldapName := "cn", attrType := "string", primaryKey := true,
           multiValued := false, readOnly := none, required := .jbool false },
         { ldapName := "mail", attrType := "string", primaryKey := false,
           multiValued := false, readOnly := none, required := .jbool false }]⟩

theorem processObjectClass_primary_key_marking_witness :
    processObjectClass userSchemaTable nullResolver "p" ocGoodPk = some ocGoodPkOut ∧
    ocGoodPkOut.attributes.countP (fun sa => sa.primaryKey) = 1 := by
  have h := processObjectClass_primary_key_marking userSchemaTable nullResolver
    "p" ocGoodPk ocGoodPkOut rfl rfl
  exact ⟨rfl, h.2.2 (by decide)⟩

/-- Like `userVal` but with `email.readOnly = false`: used to show the
schema's `readOnly` declaration does not influence the output. -/
def userValRW : JValue :=
  .jobj [("properties", .jobj [
    ("id", .jobj [("type", .jstr "string")]),
    ("email", .jobj [("type", .jstr "string"), ("readOnly", .jbool false)])])]

def userSchemaTableRW : List (String × JValue) := [("User", userValRW)]

/-- An object class mapping `mail` to the schema property `email` with no
mapping-level overrides. -/
def ocMail : OCMapping :=
  { openApiSchemaName := some "User",
    attributes := [{ ldapName := some "mail", openApiPropertyName := some "email" }] }

/-- Claim C5 counterexample: the schema declares `email` as
`readOnly: true`, the mapping sets no override, yet the resolved
attribute's read-only flag is unset (`none`), and flipping the schema's
`readOnly` to `false` leaves the generated context unchanged — the
read-only default is not taken from the schema's declared constraints. -/
theorem attribute_readOnly_not_from_schema_cex :
    (prepare_schema_context userSchemaTable nullResolver [("m", ocMail)]).map
      (fun o => o.attributes.map (fun a => a.readOnly)) = [[none]] ∧
    prepare_schema_context userSchemaTable nullResolver [("m", ocMail)] =
      prepare_schema_context userSchemaTableRW nullResolver [("m", ocMail)] :=
  ⟨rfl, rfl⟩

/-- Claim C5 (amended): for every resolved attribute, the required flag
defaults from the resolved property fragment's `required` value (`false`
when absent) and the mapping's `required` value wins when present; the
read-only flag is unset by default — independent of the schema — and is
taken from the mapping when present; a truthy `typeOverride` in the
mapping replaces the inferred type. -/
theorem attribute_default_and_override_rules
    (pk : Option String) (ss : JValue) (r : JValue → String → Option JValue)
    (a : AttrMapping) (sa : SchemaAttr)
    (h : buildSchemaAttr pk ss r a = some sa) :
    (sa.readOnly = a.readOnly) ∧
    (∀ b : Bool, a.required = some b → sa.required = .jbool b) ∧
    (a.required = none →
      sa.required =
        ((resolveAttrProp ss r a).getD (.jobj [])).getD "required" (.jbool false)) ∧
    (∀ s : String, a.typeOverride = some s → s ≠ "" → sa.attrType = s) := by
  obtain ⟨-, -, -, hro, hat, hreq⟩ := buildSchemaAttr_some_inv h
  refine ⟨hro, ?_, ?_, ?_⟩
  · intro b hb
    rw [hreq, hb]
  · intro hb
    rw [hreq, hb]
  · intro s hs hne
    rw [hat]
    unfold _infer_attribute_type
    rw [if_pos (by simp [hs, strTruthy, hne])]
    rw [hs]
    rfl

/-- An attribute entry with every mapping-level override set. -/
def aOvr : AttrMapping :=
  { ldapName := some "mail", openApiPropertyName := some "email",
    typeOverride := some "binary", readOnly := some true, required := some true }

/-- The resolved attribute computed for `aOvr` against `userVal`. -/
def saOvr : SchemaAttr :=
  { ldapName := "mail", attrType := "binary", primaryKey := false,
    multiValued := false, readOnly := some true, required := .jbool true }

theorem attribute_default_and_override_rules_witness :
    buildSchemaAttr (some "x") userVal nullResolver aOvr = some saOvr ∧
    saOvr.readOnly = aOvr.readOnly ∧
    saOvr.required = .jbool true ∧
    saOvr.attrType = "binary" := by
  have h := attribute_default_and_override_rules (some "x") userVal nullResolver
    aOvr saOvr rfl
  exact ⟨rfl, h.1, h.2.1 true rfl, h.2.2.2 "binary" rfl (by decide)⟩

theorem JValue.eqStr_true_iff (v : JValue) (s : String) :
    v.eqStr s = true ↔ v = .jstr s := by
  cases v <;> simp [JValue.eqStr]

/-- Claim C6: type resolution is total (both resolvers are total functions)
and never errors: a known (type, format) pair maps through the fixed
lookup; a known type with an unknown format falls back to the bare type's
default; an unknown bare type falls back to `Object` (Java) resp. the
default directory type `string`. -/
theorem type_resolution_fallback_rules
    (j p : JValue) (mp : Option String) (imp : Finset String) (a : AttrMapping) :
    ((∀ s ∈ (["string", "integer", "number", "boolean", "array", "object"] : List String),
        (j.getD "type" (.jstr "object")).eqStr s = false) →
      (get_java_type j mp imp).1 = "Object") ∧
    ((j.getD "type" (.jstr "object")).eqStr "string" = true →
      (∀ s ∈ (["date", "date-time", "binary", "byte"] : List String),
        optEqStr (j.get "format") s = false) →
      (get_java_type j mp imp).1 = "String") ∧
    ((j.getD "type" (.jstr "object")).eqStr "integer" = true →
      optEqStr (j.get "format") "int64" = false →
      (get_java_type j mp imp).1 = "Integer") ∧
    ((j.getD "type" (.jstr "object")).eqStr "number" = true →
      optEqStr (j.get "format") "float" = false →
      (get_java_type j mp imp).1 = "Double") ∧
    ((j.getD "type" (.jstr "object")).eqStr "boolean" = true →
      (get_java_type j mp imp).1 = "Boolean") ∧
    ((j.getD "type" (.jstr "object")).eqStr "string" = true →
      optEqStr (j.get "format") "date" = true →
      (get_java_type j mp imp).1 = "LocalDate") ∧
    ((j.getD "type" (.jstr "object")).eqStr "string" = true →
      optEqStr (j.get "format") "date-time" = true →
      (get_java_type j mp imp).1 = "OffsetDateTime") ∧
    ((j.getD "type" (.jstr "object")).eqStr "string" = true →
      (optEqStr (j.get "format") "binary" = true ∨ optEqStr (j.get "format") "byte" = true) →
      (get_java_type j mp imp).1 = "byte[]") ∧
    ((j.getD "type" (.jstr "object")).eqStr "integer" = true →
      optEqStr (j.get "format") "int64" = true →
      (get_java_type j mp imp).1 = "Long") ∧
    ((j.getD "type" (.jstr "object")).eqStr "number" = true →
      optEqStr (j.get "format") "float" = true →
      (get_java_type j mp imp).1 = "Float") ∧
    (strTruthy a.typeOverride = false →
      (p.getD "type" (.jstr "string")).eqStr "array" = false →
      ((ORX_TYPE_MAP (p.getD "type" (.jstr "string")) (pyOpt (p.get "format")) = none →
        ORX_TYPE_MAP (p.getD "type" (.jstr "string")) none = none →
        _infer_attribute_type p a = DEFAULT_ORX_TYPE) ∧
       (∀ d, ORX_TYPE_MAP (p.getD "type" (.jstr "string")) (pyOpt (p.get "format")) = none →
          ORX_TYPE_MAP (p.getD "type" (.jstr "string")) none = some d →
          _infer_attribute_type p a = d) ∧
       (∀ d, ORX_TYPE_MAP (p.getD "type" (.jstr "string")) (pyOpt (p.get "format")) = some d →
          _infer_attribute_type p a = d))) := by
  refine ⟨?_, ?_, ?_, ?_, ?_, ?_, ?_, ?_, ?_, ?_, ?_⟩
  · intro h
    have h1 := h "string" (by simp)
    have h2 := h "integer" (by simp)
    have h3 := h "number" (by simp)
    have h4 := h "boolean" (by simp)
    have h5 := h "array" (by simp)
    have h6 := h "object" (by simp)
    unfold get_java_type
    simp [h1, h2, h3, h4, h5, h6]
  · intro hT hF
    have h1 := hF "date" (by simp)
    have h2 := hF "date-time" (by simp)
    have h3 := hF "binary" (by simp)
    have h4 := hF "byte" (by simp)
    have hg := (JValue.eqStr_true_iff _ _).mp hT
    unfold get_java_type
    rw [hg]
    simp [JValue.eqStr, h1, h2, h3, h4]
  · intro hT hF
    have hg := (JValue.eqStr_true_iff _ _).mp hT
    unfold get_java_type
    rw [hg]
    simp [JValue.eqStr, hF]
  · intro hT hF
    have hg := (JValue.eqStr_true_iff _ _).mp hT
    unfold get_java_type
    rw [hg]
    simp [JValue.eqStr, hF]
  · intro hT
    have hg := (JValue.eqStr_true_iff _ _).mp hT
    unfold get_java_type
    rw [hg]
    simp [JValue.eqStr]
  · intro hT hF
    have hg := (JValue.eqStr_true_iff _ _).mp hT
    unfold get_java_type
    rw [hg]
    simp [JValue.eqStr, hF]
  · intro hT hF
    have hd : optEqStr (j.get "format") "date" = false := by
      cases hg : j.get "format" with
      | none => rfl
      | some v =>
        rw [hg] at hF
        cases v <;> simp_all [optEqStr, JValue.eqStr]
    have hg := (JValue.eqStr_true_iff _ _).mp hT
    unfold get_java_type
    rw [hg]
    simp [JValue.eqStr, hF, hd]
  · intro hT hF
    have hd : optEqStr (j.get "format") "date" = false := by
      rcases hF with hF | hF <;>
        · cases hg : j.get "format" with
          | none => rfl
          | some v =>
            rw [hg] at hF
            cases v <;> simp_all [optEqStr, JValue.eqStr]
    have hdt : optEqStr (j.get "format") "date-time" = false := by
      rcases hF with hF | hF <;>
        · cases hg : j.get "format" with
          | none => rfl
          | some v =>
            rw [hg] at hF
            cases v <;> simp_all [optEqStr, JValue.eqStr]
    have hg := (JValue.eqStr_true_iff _ _).mp hT
    unfold get_java_type
    rw [hg]
    rcases hF with hF | hF <;> simp [JValue.eqStr, hF, hd, hdt]
  · intro hT hF
    have hg := (JValue.eqStr_true_iff _ _).mp hT
    unfold get_java_type
    rw [hg]
    simp [JValue.eqStr, hF]
  · intro hT hF
    have hg := (JValue.eqStr_true_iff _ _).mp hT
    unfold get_java_type
    rw [hg]
    simp [JValue.eqStr, hF]
  · intro hov harr
    refine ⟨?_, ?_, ?_⟩
    · intro h1 h2
      unfold _infer_attribute_type
      rw [if_neg (by simp [hov]), if_neg (by simp [harr]), h1, h2]
    · intro d h1 h2
      unfold _infer_attribute_type
      rw [if_neg (by simp [hov]), if_neg (by simp [harr]), h1, h2]
    · intro d h1
      unfold _infer_attribute_type
      rw [if_neg (by simp [hov]), if_neg (by simp [harr]), h1]

theorem type_resolution_fallback_rules_witness :
    (get_java_type (.jobj [("type", .jstr "foo")]) none ∅).1 = "Object" ∧
    (get_java_type (.jobj [("type", .jstr "string"), ("format", .jstr "uuid")])
      none ∅).1 = "String" ∧
    (get_java_type (.jobj [("type", .jstr "string"), ("format", .jstr "date-time")])
      none ∅).1 = "OffsetDateTime" ∧
    _infer_attribute_type (.jobj [("type", .jstr "widget")]) { } = DEFAULT_ORX_TYPE ∧
    _infer_attribute_type (.jobj [("type", .jstr "integer"), ("format", .jstr "int64")])
      { } = "long" ∧
    _infer_attribute_type (.jobj [("type", .jstr "integer"), ("format", .jstr "uuid")])
      { } = "integer" := by
  refine ⟨?_, ?_, ?_, ?_, ?_, ?_⟩
  · exact (type_resolution_fallback_rules (.jobj [("type", .jstr "foo")]) .null
      none ∅ { }).1 (by decide)
  · exact (type_resolution_fallback_rules
      (.jobj [("type", .jstr "string"), ("format", .jstr "uuid")]) .null
      none ∅ { }).2.1 (by decide) (by decide)
  · exact (type_resolution_fallback_rules
      (.jobj [("type", .jstr "string"), ("format", .jstr "date-time")]) .null
      none ∅ { }).2.2.2.2.2.2.1 (by decide) (by decide)
  · exact ((type_resolution_fallback_rules .null (.jobj [("type", .jstr "widget")])
      none ∅ { }).2.2.2.2.2.2.2.2.2.2 rfl (by decide)).1 rfl rfl
  · exact ((type_resolution_fallback_rules .null
      (.jobj [("type", .jstr "integer"), ("format", .jstr "int64")])
      none ∅ { }).2.2.2.2.2.2.2.2.2.2 rfl (by decide)).2.2 "long" rfl
  · exact ((type_resolution_fallback_rules .null
      (.jobj [("type", .jstr "integer"), ("format", .jstr "uuid")])
      none ∅ { }).2.2.2.2.2.2.2.2.2.2 rfl (by decide)).2.1 "integer" rfl rfl

/-- Claim C8: `get_java_type` is a total function (its termination is part
of its Lean definition), and on an object fragment carrying a (truthy)
`$ref` it returns the referenced schema's simple class name computed from
the reference string alone — it takes no schema table and never recurses
into the referenced schema's body, so a table in which schema A references
B and B references A cannot cause unbounded recursion: the cycle collapses
to a shallow reference. -/
theorem get_java_type_ref_shallow
    (j : JValue) (mp : Option String) (imp : Finset String) (refStr : String)
    (hT : (j.getD "type" (.jstr "object")).eqStr "object" = true)
    (hR : (j.get "$ref").bind JValue.asStr = some refStr)
    (hne : refStr ≠ "") :
    (get_java_type j mp imp).1 = to_java_class_name (lastSlashSegment refStr) := by
  have hg := (JValue.eqStr_true_iff _ _).mp hT
  unfold get_java_type
  rw [hg, hR]
  simp only [JValue.eqStr, strTruthy]
  rw [if_neg (by simp), if_neg (by simp), if_neg (by simp), if_neg (by simp)]
  rw [dif_neg (by simp), if_pos (by simp)]
  rw [if_pos (by simpa using hne)]
  cases mp <;> simp

/-- Schema `A` of a cyclic pair: its `b` property references `B`. -/
def cyclicSchemaA : JValue :=
  .jobj [("type", .jstr "object"),
         ("properties", .jobj [("b", .jobj [("$ref", .jstr "#/components/schemas/B")])])]

/-- Schema `B` of a cyclic pair: its `a` property references `A`. -/
def cyclicSchemaB : JValue :=
  .jobj [("type", .jstr "object"),
         ("properties", .jobj [("a", .jobj [("$ref", .jstr "#/components/schemas/A")])])]

/-- A schema table containing the reference cycle A → B → A. -/
def cyclicSchemaTable : List (String × JValue) :=
  [("A", cyclicSchemaA), ("B", cyclicSchemaB)]

theorem get_java_type_ref_shallow_witness :
    (get_java_type (.jobj [("$ref", .jstr "#/components/schemas/A")]) none ∅).1 =
      to_java_class_name (lastSlashSegment "#/components/schemas/A") ∧
    to_java_class_name (lastSlashSegment "#/components/schemas/A") = "A" ∧
    (cyclicSchemaB.getD "properties" (.jobj [])).get "a" =
      some (.jobj [("$ref", .jstr "#/components/schemas/A")]) := by
  refine ⟨?_, by decide, rfl⟩
  exact get_java_type_ref_shallow _ none ∅ "#/components/schemas/A"
    (by decide) rfl (by decide)

/-- JSON-Schema semantics of a `properties` entry: the sub-schema applies
only when the key is present. -/
def propOk (j : JValue) (k : String) (check : JValue → Bool) : Bool :=
  match j.get k with
  | some v => check v
  | none => true

/-- JSON-Schema `required`: every listed key must be present. -/
def requiredOk (j : JValue) (ks : List String) : Bool :=
  ks.all (fun k => j.hasKey k)

/-- JSON-Schema `oneOf`: exactly one alternative validates. -/
def oneOfOk (alts : List Bool) : Bool := alts.countP id = 1

/-- The `dnStructure.components` item schema of `MAPPING_SCHEMA`
(the mapping parser module). -/
def validDnComponent (j : JValue) : Bool :=
  j.isObj && propOk j "ldapName" JValue.isStr &&
    propOk j "openApiParameterName" JValue.isStr &&
    requiredOk j ["ldapName", "openApiParameterName"]

/-- The `dnStructure` sub-schema of `MAPPING_SCHEMA`. -/
def validDnStructure (j : JValue) : Bool :=
  j.isObj && propOk j "baseDnSuffix" JValue.isStr &&
    propOk j "rdnAttribute" JValue.isStr &&
    propOk j "components" (fun c => c.isArr && c.items.all validDnComponent) &&
    requiredOk j ["baseDnSuffix", "rdnAttribute"]

/-- The `objectClasses.*.attributes` item schema of `MAPPING_SCHEMA`:
`required: [ldapName]` plus `oneOf` requiring exactly one of
`openApiPropertyName` and `jsonPath`. -/
def validAttributeItem (j : JValue) : Bool :=
  j.isObj && propOk j "ldapName" JValue.isStr &&
    propOk j "openApiPropertyName" JValue.isStr &&
    propOk j "jsonPath" JValue.isStr &&
    propOk j "typeOverride" JValue.isStr &&
    propOk j "readOnly" JValue.isBool &&
    propOk j "required" JValue.isBool &&
    propOk j "apiQueryParam" JValue.isStr &&
    requiredOk j ["ldapName"] &&
    oneOfOk [requiredOk j ["openApiPropertyName"], requiredOk j ["jsonPath"]]

/-- The `objectClasses.additionalProperties` sub-schema of
`MAPPING_SCHEMA`. -/
def validObjectClassEntry (j : JValue) : Bool :=
  j.isObj && propOk j "ldapName" JValue.isStr &&
    propOk j "openApiSchemaRef" JValue.isStr &&
    propOk j "openApiSchemaName" JValue.isStr &&
    propOk j "apiEndpoint" JValue.isStr &&
    propOk j "primaryKeyLdapAttribute" JValue.isStr &&
    propOk j "primaryKeyOpenApiParameterName" JValue.isStr &&
    propOk j "primaryKeyJsonPath" JValue.isStr &&
    propOk j "attributes" (fun a => a.isArr && a.items.all validAttributeItem) &&
    requiredOk j ["ldapName", "attributes"] &&
    oneOfOk [requiredOk j ["openApiSchemaRef"], requiredOk j ["openApiSchemaName"]]

/-- Schema `MAPPING_SCHEMA` from the mapping parser module, rendered as the
validation predicate that `jsonschema.validate` applies to a mapping
document. -/
def validMappingDoc (j : JValue) : Bool :=
  j.isObj && propOk j "dnStructure" validDnStructure &&
    propOk j "objectClasses"
      (fun oc => oc.isObj && oc.fieldsOf.all (fun p => validObjectClassEntry p.2)) &&
    requiredOk j ["dnStructure", "objectClasses"]

/-- Function `load_mapping_spec` from the mapping parser module, from the point
where the document has been parsed from JSON: validation failure raises a
`ValueError` (embedded as `Except.error`) before any resolution, and a
valid document is returned unchanged (the `MappingSpec` object wraps the
raw parsed data). -/
def load_mapping_spec (mappingData : JValue) : Except String JValue :=
  if validMappingDoc mappingData then .ok mappingData
  else .error "Invalid mapping file format"

theorem validAttributeItem_eq_false {a : JValue}
    (h : (a.hasKey "openApiPropertyName" = true ∧ a.hasKey "jsonPath" = true) ∨
         (a.hasKey "openApiPropertyName" = false ∧ a.hasKey "jsonPath" = false)) :
    validAttributeItem a = false := by
  unfold validAttributeItem oneOfOk requiredOk
  rcases h with ⟨h1, h2⟩ | ⟨h1, h2⟩ <;> simp [h1, h2]

theorem validObjectClassEntry_eq_false {oc attrs a : JValue}
    (hga : oc.get "attributes" = some attrs) (ha : a ∈ attrs.items)
    (hbad : validAttributeItem a = false) :
    validObjectClassEntry oc = false := by
  unfold validObjectClassEntry
  have hall : attrs.items.all validAttributeItem = false :=
    List.all_eq_false.mpr ⟨a, ha, by simp [hbad]⟩
  have hprop : propOk oc "attributes"
      (fun x => x.isArr && x.items.all validAttributeItem) = false := by
    unfold propOk
    rw [hga]
    simp [hall]
  simp [hprop]

theorem validMappingDoc_eq_false {d ocs oc : JValue} {name : String}
    (hg : d.get "objectClasses" = some ocs) (hmem : (name, oc) ∈ ocs.fieldsOf)
    (hbad : validObjectClassEntry oc = false) :
    validMappingDoc d = false := by
  unfold validMappingDoc
  have hall : ocs.fieldsOf.all (fun p => validObjectClassEntry p.2) = false :=
    List.all_eq_false.mpr ⟨(name, oc), hmem, by simp [hbad]⟩
  have hprop : propOk d "objectClasses"
      (fun x => x.isObj && x.fieldsOf.all (fun p => validObjectClassEntry p.2)) = false := by
    unfold propOk
    rw [hg]
    simp [hall]
  simp [hprop]

/-- Claim C7: a mapping document in which some attribute entry carries both
`openApiPropertyName` and `jsonPath`, or neither, fails validation (the
`oneOf` of `MAPPING_SCHEMA`) and loading raises before any resolution;
every document conforming to the structural schema loads successfully and
is returned unchanged. -/
theorem load_mapping_spec_exactly_one_locator (d : JValue) :
    (validMappingDoc d = true → load_mapping_spec d = .ok d) ∧
    (∀ ocs : JValue, ∀ name : String, ∀ oc attrs a : JValue,
      d.get "objectClasses" = some ocs →
      (name, oc) ∈ ocs.fieldsOf →
      oc.get "attributes" = some attrs →
      a ∈ attrs.items →
      ((a.hasKey "openApiPropertyName" = true ∧ a.hasKey "jsonPath" = true) ∨
       (a.hasKey "openApiPropertyName" = false ∧ a.hasKey "jsonPath" = false)) →
      load_mapping_spec d = .error "Invalid mapping file format") := by
  constructor
  · intro h
    unfold load_mapping_spec
    rw [if_pos h]
  · intro ocs name oc attrs a hg hmem hga ha hbad
    have h1 : validAttributeItem a = false := validAttributeItem_eq_false hbad
    have h2 : validObjectClassEntry oc = false := validObjectClassEntry_eq_false hga ha h1
    have h3 : validMappingDoc d = false := validMappingDoc_eq_false hg hmem h2
    unfold load_mapping_spec
    rw [if_neg (by simp [h3])]

/-- A structurally valid mapping document. -/
def validMappingDocExample : JValue :=
  .jobj [("dnStructure", .jobj [("baseDnSuffix", .jstr "ou=users"),
                                ("rdnAttribute", .jstr "cn")]),
         ("objectClasses", .jobj [("person", .jobj [
            ("ldapName", .jstr "person"),
            ("openApiSchemaName", .jstr "User"),
            ("attributes", .jarr [.jobj [("ldapName", .jstr "cn"),
                                         ("openApiPropertyName", .jstr "id")]])])])]

/-- An attribute entry carrying both locators. -/
def badLocatorAttr : JValue :=
  .jobj [("ldapName", .jstr "cn"), ("openApiPropertyName", .jstr "id"),
         ("jsonPath", .jstr "$.id")]

/-- An object-class entry containing `badLocatorAttr`. -/
def badPersonOc : JValue :=
  .jobj [("ldapName", .jstr "person"), ("openApiSchemaName", .jstr "User"),
         ("attributes", .jarr [badLocatorAttr])]

/-- A mapping document whose only flaw is the double locator. -/
def invalidMappingDocExample : JValue :=
  .jobj [("dnStructure", .jobj [("baseDnSuffix", .jstr "ou=users"),
                                ("rdnAttribute", .jstr "cn")]),
         ("objectClasses", .jobj [("person", badPersonOc)])]

theorem load_mapping_spec_exactly_one_locator_witness :
    load_mapping_spec validMappingDocExample = .ok validMappingDocExample ∧
    load_mapping_spec invalidMappingDocExample =
      .error "Invalid mapping file format" := by
  constructor
  · exact (load_mapping_spec_exactly_one_locator validMappingDocExample).1 (by decide)
  · exact (load_mapping_spec_exactly_one_locator invalidMappingDocExample).2
      (.jobj [("person", badPersonOc)]) "person" badPersonOc
      (.jarr [badLocatorAttr]) badLocatorAttr rfl
      (List.mem_singleton.mpr rfl) rfl (List.mem_singleton.mpr rfl)
      (Or.inl ⟨rfl, rfl⟩)

/-- A parameter record appended to `params` for the generated client
method signature. -/
structure SigParam where
  name : String
  type : String
  originalName : String
  paramIn : String
  description : String
deriving DecidableEq

/-- Accumulator of the `for param_details in all_op_params` loop:
`params`, the `imports` set, and the `path_params_in_sig` set. -/
structure ParamAcc where
  params : List SigParam
  imports : Finset String
  pathParamsInSig : Finset String
deriving DecidableEq

/-- Python `d.get(k, 'default')` where the code expects a string. -/
def jGetStrD (j : JValue) (k : String) (d : String) : String :=
  match j.get k with
  | some (.jstr s) => s
  | _ => d

/-- The body of the parameter loop of `_generate_backend_client`
(lines 462-478): parameters whose `in` is neither `path` nor `query` are
skipped; `path` parameters additionally record their Java name in
`path_params_in_sig`.  A missing or non-string `name` (on which the source
would raise inside `to_java_variable_name`) is modelled as `""`. -/
def addSigParam (modelPackage : String) (acc : ParamAcc) (paramDetails : JValue) :
    ParamAcc :=
  match (paramDetails.get "in").bind JValue.asStr with
  | some pin =>
    if pin = "path" ∨ pin = "query" then
      let paramName := ((paramDetails.get "name").bind JValue.asStr).getD ""
      let javaParamName := to_java_variable_name paramName
      let r := get_java_type (paramDetails.getD "schema" (.jobj []))
        (some modelPackage) acc.imports
      { params := acc.params ++
          [{ name := javaParamName, type := r.1, originalName := paramName,
             paramIn := pin, description := jGetStrD paramDetails "description" "" }]
        imports := r.2
        pathParamsInSig :=
          if pin = "path" then insert javaParamName acc.pathParamsInSig
          else acc.pathParamsInSig }
    else acc
  | none => acc

/-- The synthesized operation id of line 452:
`method.lower() + path.replace('/', '_').replace('{', '_').replace('} ', '')`
(note the source's trailing space in the third replacement). -/
def synthesizedOperationId (httpMethod pathTemplate : String) : String :=
  pyLower httpMethod ++
    pyReplace (pyReplace (pyReplace pathTemplate "/" "_") "\x7b" "_") "\x7d " ""

def BACKEND_RESPONSE_BASE : String := "BackendResponse"

/-- The return-type information computed in lines 506-533. -/
structure ReturnInfo where
  returnType : String
  returnTypeSimple : String
  responseContentType : Option String
  responsePojoType : Option String
  imports : Finset String
deriving DecidableEq

/-- Lines 506-533 of `_generate_backend_client`: the success response is
`responses.get('200') or responses.get('201')`; a JSON schema there gives
the payload type, a bare description gives payload `Void`; a DELETE with a
`204` response forces the wrapper return type and payload `Void`. -/
def computeReturnInfo (httpMethod : String) (opDetails : JValue)
    (modelPackage : String) (imports : Finset String) : ReturnInfo :=
  let responses := opDetails.getD "responses" (.jobj [])
  let successResponse : Option JValue :=
    if optTruthy (responses.get "200") then responses.get "200"
    else responses.get "201"
  let st : ReturnInfo :=
    if optTruthy successResponse then
      let sr := successResponse.getD .null
      let jsonContent := (sr.getD "content" (.jobj [])).get "application/json"
      if optTruthy jsonContent ∧ (jsonContent.getD .null).hasKey "schema" then
        let r := get_java_type ((jsonContent.getD .null).getD "schema" .null)
          (some modelPackage) imports
        { returnType := BACKEND_RESPONSE_BASE
          returnTypeSimple := r.1
          responseContentType := some "application/json"
          responsePojoType := some r.1
          imports := insert (modelPackage ++ "." ++ BACKEND_RESPONSE_BASE) r.2 }
      else if optTruthy (sr.get "description") then
        { returnType := BACKEND_RESPONSE_BASE, returnTypeSimple := "void",
          responseContentType := none, responsePojoType := some "Void",
          imports := insert (modelPackage ++ "." ++ BACKEND_RESPONSE_BASE) imports }
      else
        { returnType := "void", returnTypeSimple := "void",
          responseContentType := none, responsePojoType := none,
          imports := imports }
    else
      { returnType := "void", returnTypeSimple := "void",
        responseContentType := none, responsePojoType := none,
        imports := imports }
  if pyUpper httpMethod = "DELETE" ∧ responses.hasKey "204" then
    { st with
      returnType := BACKEND_RESPONSE_BASE
      responsePojoType := some "Void"
      imports := insert (modelPackage ++ "." ++ BACKEND_RESPONSE_BASE) st.imports }
  else st

/-- The request-body information of lines 482-504: the final `params` list
(body parameter appended when a JSON schema is present), the body
parameter, the request content type and the updated imports. -/
structure BodyInfo where
  params : List SigParam
  requestBodyParam : Option SigParam
  requestContentType : Option String
  imports : Finset String
deriving DecidableEq

/-- One generated client method (`method_data`, lines 536-548). -/
structure MethodData where
  name : String
  summary : String
  httpMethod : String
  endpointPathTemplate : String
  params : List SigParam
  pathParamsInSig : List String
  requestBodyParam : Option SigParam
  returnType : String
  returnTypeSimple : String
  requestContentType : Option String
  responseContentType : Option String
deriving DecidableEq

/-- One `client_method_metadata` entry (lines 552-557). -/
structure ClientMethodMeta where
  name : String
  signature : List (String × String)
  returnType : String
  payloadType : String
deriving DecidableEq

/-- The body of the method loop of `_generate_backend_client`
(lines 445-557) for one `(http_method, op_details)` pair under
`path_template`: the `method_data` record, the metadata entry keyed by the
operation id, and the updated imports.  `materialize` models the CPython
call `list(path_params_in_sig)`: the order in which a `set` is listed is
not fixed by the language, so the embedding takes it as a parameter. -/
def buildMethodData (modelPackage : String)
    (materialize : Finset String → List String)
    (pathTemplate : String) (commonParams : List JValue)
    (httpMethod : String) (opDetails : JValue) (imports : Finset String) :
    MethodData × (String × ClientMethodMeta) × Finset String :=
  let operationId :=
    if optTruthy (opDetails.get "operationId") then
      ((opDetails.get "operationId").bind JValue.asStr).getD ""
    else synthesizedOperationId httpMethod pathTemplate
  let methodName := to_java_variable_name operationId
  let summary := jGetStrD opDetails "summary" ""
  let allOpParams := commonParams ++ (opDetails.getD "parameters" (.jarr [])).items
  let acc := allOpParams.foldl (addSigParam modelPackage)
    { params := [], imports := imports, pathParamsInSig := ∅ }
  let requestBody := opDetails.get "requestBody"
  let bi : BodyInfo :=
    if optTruthy requestBody then
      let jsonContent :=
        ((requestBody.getD .null).getD "content" (.jobj [])).get "application/json"
      if optTruthy jsonContent ∧ (jsonContent.getD .null).hasKey "schema" then
        let r := get_java_type ((jsonContent.getD .null).getD "schema" .null)
          (some modelPackage) acc.imports
        let bodyParam : SigParam :=
          { name := "body", type := r.1, originalName := "body",
            paramIn := "body", description := "Request body" }
        { params := acc.params ++ [bodyParam], requestBodyParam := some bodyParam,
          requestContentType := some "application/json", imports := r.2 }
      else
        { params := acc.params, requestBodyParam := none,
          requestContentType := none, imports := acc.imports }
    else
      { params := acc.params, requestBodyParam := none,
        requestContentType := none, imports := acc.imports }
  let ri := computeReturnInfo httpMethod opDetails modelPackage bi.imports
  let md : MethodData :=
    { name := methodName, summary := summary, httpMethod := pyUpper httpMethod,
      endpointPathTemplate := pathTemplate, params := bi.params,
      pathParamsInSig := materialize acc.pathParamsInSig,
      requestBodyParam := bi.requestBodyParam,
      returnType := ri.returnType, returnTypeSimple := ri.returnTypeSimple,
      requestContentType := bi.requestContentType,
      responseContentType := ri.responseContentType }
  let meta : ClientMethodMeta :=
    { name := methodName,
      signature := bi.params.map (fun p => (p.type, p.name)),
      returnType := ri.returnType,
      payloadType := (ri.responsePojoType).getD ri.returnTypeSimple }
  (md, (operationId, meta), ri.imports)

/-- Python dict assignment `d[k] = v`: replaces the existing binding in
place, or appends a new one. -/
def dictInsert (m : List (String × ClientMethodMeta)) (k : String)
    (v : ClientMethodMeta) : List (String × ClientMethodMeta) :=
  if m.any (fun p => p.1 = k) then
    m.map (fun p => if p.1 = k then (k, v) else p)
  else m ++ [(k, v)]

/-- Python `path_details.get('parameters', [])`. -/
def listLookupD (l : List (String × JValue)) (k : String) (d : JValue) : JValue :=
  ((l.find? (fun p => p.1 = k)).map (fun p => p.2)).getD d

/-- One iteration of the loop over `path_details.items()` (line 445): a
key that is not an HTTP method (such as `parameters`) is skipped;
otherwise the generated method, its metadata entry and the imports are
accumulated. -/
def extractStep (modelPackage : String)
    (materialize : Finset String → List String) (pathTemplate : String)
    (commonParams : List JValue)
    (acc : List MethodData × List (String × ClientMethodMeta) × Finset String)
    (kv : String × JValue) :
    List MethodData × List (String × ClientMethodMeta) × Finset String :=
  if pyUpper kv.1 ∈ httpMethodKeys then
    let r := buildMethodData modelPackage materialize pathTemplate commonParams
      kv.1 kv.2 acc.2.2
    (acc.1 ++ [r.1], dictInsert acc.2.1 r.2.1.1 r.2.1.2, r.2.2)
  else acc

/-- The inner loop over `path_details.items()`: methods, metadata and
imports accumulate left to right. -/
def extractPathMethods (modelPackage : String)
    (materialize : Finset String → List String) (pathTemplate : String)
    (pathDetails : List (String × JValue))
    (acc : List MethodData × List (String × ClientMethodMeta) × Finset String) :
    List MethodData × List (String × ClientMethodMeta) × Finset String :=
  pathDetails.foldl
    (extractStep modelPackage materialize pathTemplate
      (listLookupD pathDetails "parameters" (.jarr [])).items)
    acc

/-- The `for path_template, path_details in paths.items()` loop of
`_generate_backend_client` (lines 442-557): the generated client methods
in document order, the `client_method_metadata` dict, and the final
imports set. -/
def extractClientMethods (modelPackage : String)
    (materialize : Finset String → List String)
    (paths : List (String × List (String × JValue))) (imports : Finset String) :
    List MethodData × List (String × ClientMethodMeta) × Finset String :=
  paths.foldl
    (fun acc p => extractPathMethods modelPackage materialize p.1 p.2 acc)
    ([], [], imports)

/-- Claim C10: the return and payload type of a generated client method
are determined by the response entries under `200` and `201` alone, plus —
for DELETE — the presence of a `204` entry: two operations agreeing on
those agree on the whole computed return information; and an operation
with no truthy `200`/`201` entry (and, unless it is a DELETE with a `204`,
nothing else) gets return type `void` with no recorded payload type. -/
theorem computeReturnInfo_success_codes (m mp : String) (imp : Finset String)
    (o1 o2 : JValue) :
    (((o1.getD "responses" (.jobj [])).get "200" =
        (o2.getD "responses" (.jobj [])).get "200") →
     ((o1.getD "responses" (.jobj [])).get "201" =
        (o2.getD "responses" (.jobj [])).get "201") →
     ((o1.getD "responses" (.jobj [])).hasKey "204" =
        (o2.getD "responses" (.jobj [])).hasKey "204") →
     computeReturnInfo m o1 mp imp = computeReturnInfo m o2 mp imp) ∧
    (optTruthy ((o1.getD "responses" (.jobj [])).get "200") = false →
     optTruthy ((o1.getD "responses" (.jobj [])).get "201") = false →
     ¬ (pyUpper m = "DELETE" ∧ (o1.getD "responses" (.jobj [])).hasKey "204" = true) →
     (computeReturnInfo m o1 mp imp).returnType = "void" ∧
     (computeReturnInfo m o1 mp imp).responsePojoType = none) := by
  constructor
  · intro h200 h201 h204
    unfold computeReturnInfo
    dsimp only
    rw [h200, h201, h204]
  · intro h200 h201 h204
    unfold computeReturnInfo
    dsimp only
    rw [h200]
    simp only [Bool.false_eq_true, if_false]
    rw [h201]
    simp only [Bool.false_eq_true, if_false]
    rw [if_neg h204]
    exact ⟨rfl, rfl⟩

theorem computeReturnInfo_success_codes_witness :
    computeReturnInfo "post"
        (.jobj [("responses", .jobj [("202", .jobj [("description", .jstr "Accepted")])])])
        "com.example.model" ∅ =
      computeReturnInfo "post"
        (.jobj [("responses", .jobj [("202", .jobj [("description", .jstr "Accepted")])])])
        "com.example.model" ∅ ∧
    (computeReturnInfo "post"
        (.jobj [("responses", .jobj [("202", .jobj [("description", .jstr "Accepted")])])])
        "com.example.model" ∅).returnType = "void" ∧
    (computeReturnInfo "post"
        (.jobj [("responses", .jobj [("202", .jobj [("description", .jstr "Accepted")])])])
        "com.example.model" ∅).responsePojoType = none := by
  have h := computeReturnInfo_success_codes "post" "com.example.model" ∅
    (.jobj [("responses", .jobj [("202", .jobj [("description", .jstr "Accepted")])])])
    (.jobj [("responses", .jobj [("202", .jobj [("description", .jstr "Accepted")])])])
  have h2 := h.2 rfl rfl (by intro hc; exact absurd hc.1 (by decide))
  exact ⟨h.1 rfl rfl rfl, h2.1, h2.2⟩

/-- The (original name, location) key a parameter entry contributes to the
generated signature, or `none` when the entry is skipped. -/
def sigKey (paramDetails : JValue) : Option (String × String) :=
  match (paramDetails.get "in").bind JValue.asStr with
  | some pin =>
    if pin = "path" ∨ pin = "query" then
      some (((paramDetails.get "name").bind JValue.asStr).getD "", pin)
    else none
  | none => none

theorem addSigParam_fold_trace (modelPackage : String) (l : List JValue)
    (acc : ParamAcc) :
    ((l.foldl (addSigParam modelPackage) acc).params.map
        (fun q => (q.originalName, q.paramIn))) =
      acc.params.map (fun q => (q.originalName, q.paramIn)) ++ l.filterMap sigKey := by
  induction l generalizing acc with
  | nil => simp
  | cons j t ih =>
    rw [List.foldl_cons, ih, List.filterMap_cons]
    cases hin : (j.get "in").bind JValue.asStr with
    | none => simp [addSigParam, sigKey, hin]
    | some pin =>
      by_cases hp : pin = "path" ∨ pin = "query"
      · simp [addSigParam, sigKey, hin, hp]
      · simp [addSigParam, sigKey, hin, hp]

/-- Claim C2 (amended): the parameter list of a generated client method is
built from the concatenation of path-level and operation-level parameters
with no override and no deduplication: for every (name, location) pair the
signature contains as many parameters carrying it as the two levels
contribute together, so a parameter declared identically at both levels
appears twice. -/
theorem merged_params_concatenation (modelPackage : String)
    (common opParams : List JValue) (imports : Finset String) (n l : String) :
    (((common ++ opParams).foldl (addSigParam modelPackage)
        { params := [], imports := imports, pathParamsInSig := ∅ }).params.countP
      (fun q => q.originalName == n && q.paramIn == l)) =
    ((common.foldl (addSigParam modelPackage)
        { params := [], imports := imports, pathParamsInSig := ∅ }).params.countP
      (fun q => q.originalName == n && q.paramIn == l)) +
    ((opParams.foldl (addSigParam modelPackage)
        { params := [], imports := imports, pathParamsInSig := ∅ }).params.countP
      (fun q => q.originalName == n && q.paramIn == l)) := by
  have key : ∀ xs : List JValue,
      ((xs.foldl (addSigParam modelPackage)
          { params := [], imports := imports, pathParamsInSig := ∅ }).params.countP
        (fun q => q.originalName == n && q.paramIn == l)) =
      (xs.filterMap sigKey).countP (fun pr => pr.1 == n && pr.2 == l) := by
    intro xs
    have h := addSigParam_fold_trace modelPackage xs
      { params := [], imports := imports, pathParamsInSig := ∅ }
    have h2 := congrArg (List.countP (fun pr : String × String => pr.1 == n && pr.2 == l)) h
    rw [List.countP_map] at h2
    simpa using h2
  rw [key, key, key, List.filterMap_append, List.countP_append]

/-- A path parameter named `id`, as declared at both levels. -/
def dupIdParam : JValue :=
  .jobj [("name", .jstr "id"), ("in", .jstr "path"),
         ("schema", .jobj [("type", .jstr "string")])]

/-- Claim C2 counterexample: with the same `id` path parameter declared at
path level and at operation level, the generated method's signature
carries it twice — the operation-level parameter does not replace the
path-level one. -/
theorem merged_params_duplicate_cex :
    ((buildMethodData "com.example.model" (fun _ => []) "/things/\x7bid\x7d"
        [dupIdParam] "get"
        (.jobj [("operationId", .jstr "getThing"),
                ("parameters", .jarr [dupIdParam])]) ∅).1.params.countP
      (fun q => q.originalName == "id" && q.paramIn == "path")) = 2 := by
  rfl

/-- A method record with its set-derived path-parameter listing removed. -/
def eraseListing (md : MethodData) : MethodData := { md with pathParamsInSig := [] }

/-- A listing function is valid when, on every set, it lists exactly the
set's elements without duplicates — any iteration order a CPython `set`
may exhibit. -/
def ValidListing (materialize : Finset String → List String) : Prop :=
  ∀ s : Finset String, (materialize s).Nodup ∧ ∀ x, x ∈ materialize s ↔ x ∈ s

theorem buildMethodData_materialize_congr (mp : String)
    (m1 m2 : Finset String → List String) (pt : String) (cp : List JValue)
    (m : String) (o : JValue) (imp : Finset String) :
    eraseListing (buildMethodData mp m1 pt cp m o imp).1 =
      eraseListing (buildMethodData mp m2 pt cp m o imp).1 ∧
    (buildMethodData mp m1 pt cp m o imp).2 =
      (buildMethodData mp m2 pt cp m o imp).2 :=
  ⟨rfl, rfl⟩

theorem extractStep_materialize_congr (mp : String)
    (m1 m2 : Finset String → List String) (pt : String) (cp : List JValue)
    (kv : String × JValue)
    (acc1 acc2 : List MethodData × List (String × ClientMethodMeta) × Finset String)
    (h1 : acc1.1.map eraseListing = acc2.1.map eraseListing)
    (h2 : acc1.2 = acc2.2) :
    (extractStep mp m1 pt cp acc1 kv).1.map eraseListing =
      (extractStep mp m2 pt cp acc2 kv).1.map eraseListing ∧
    (extractStep mp m1 pt cp acc1 kv).2 = (extractStep mp m2 pt cp acc2 kv).2 := by
  unfold extractStep
  by_cases hm : pyUpper kv.1 ∈ httpMethodKeys
  · rw [if_pos hm, if_pos hm]
    dsimp only
    have himp : acc1.2.2 = acc2.2.2 := by rw [h2]
    have hmeta : acc1.2.1 = acc2.2.1 := by rw [h2]
    obtain ⟨e1, e2⟩ := buildMethodData_materialize_congr mp m1 m2 pt cp kv.1 kv.2 acc1.2.2
    constructor
    · rw [List.map_append, List.map_append, h1]
      simp only [List.map_cons, List.map_nil]
      rw [e1, himp]
    · obtain ⟨-, e2b⟩ := buildMethodData_materialize_congr mp m1 m2 pt cp kv.1 kv.2 acc2.2.2
      rw [hmeta, himp, e2b]
  · rw [if_neg hm, if_neg hm]
    exact ⟨h1, h2⟩

theorem extractFold_materialize_congr (mp : String)
    (m1 m2 : Finset String → List String) (pt : String) (cp : List JValue)
    (l : List (String × JValue))
    (acc1 acc2 : List MethodData × List (String × ClientMethodMeta) × Finset String)
    (h1 : acc1.1.map eraseListing = acc2.1.map eraseListing)
    (h2 : acc1.2 = acc2.2) :
    (l.foldl (extractStep mp m1 pt cp) acc1).1.map eraseListing =
      (l.foldl (extractStep mp m2 pt cp) acc2).1.map eraseListing ∧
    (l.foldl (extractStep mp m1 pt cp) acc1).2 =
      (l.foldl (extractStep mp m2 pt cp) acc2).2 := by
  induction l generalizing acc1 acc2 with
  | nil => exact ⟨h1, h2⟩
  | cons kv t ih =>
    rw [List.foldl_cons, List.foldl_cons]
    obtain ⟨s1, s2⟩ := extractStep_materialize_congr mp m1 m2 pt cp kv acc1 acc2 h1 h2
    exact ih _ _ s1 s2

/-- Claim C9 (amended): extraction is deterministic except for the order
of each method's path-parameter name list.  For any two listings of the
unordered `path_params_in_sig` set, the extracted methods agree once that
list is ignored, and the metadata dictionary and import set agree exactly;
moreover an operation without a (truthy) declared identifier receives an
operation id that is the same function of its HTTP method and path
template — independent of everything else in the operation and of the
run's set-listing order. -/
theorem extract_deterministic_modulo_set_order (mp : String)
    (m1 m2 : Finset String → List String)
    (paths : List (String × List (String × JValue))) (imports : Finset String) :
    ((extractClientMethods mp m1 paths imports).1.map eraseListing =
      (extractClientMethods mp m2 paths imports).1.map eraseListing ∧
     (extractClientMethods mp m1 paths imports).2 =
      (extractClientMethods mp m2 paths imports).2) ∧
    (∀ (pt : String) (cp : List JValue) (m : String) (o1 o2 : JValue)
        (imp1 imp2 : Finset String),
      optTruthy (o1.get "operationId") = false →
      optTruthy (o2.get "operationId") = false →
      (buildMethodData mp m1 pt cp m o1 imp1).2.1.1 =
        (buildMethodData mp m2 pt cp m o2 imp2).2.1.1) := by
  constructor
  · unfold extractClientMethods
    have main : ∀ (ps : List (String × List (String × JValue)))
        (acc1 acc2 : List MethodData × List (String × ClientMethodMeta) × Finset String),
        acc1.1.map eraseListing = acc2.1.map eraseListing → acc1.2 = acc2.2 →
        ((ps.foldl (fun acc p => extractPathMethods mp m1 p.1 p.2 acc) acc1).1.map
            eraseListing =
          (ps.foldl (fun acc p => extractPathMethods mp m2 p.1 p.2 acc) acc2).1.map
            eraseListing) ∧
        (ps.foldl (fun acc p => extractPathMethods mp m1 p.1 p.2 acc) acc1).2 =
          (ps.foldl (fun acc p => extractPathMethods mp m2 p.1 p.2 acc) acc2).2 := by
      intro ps
      induction ps with
      | nil => intro acc1 acc2 h1 h2; exact ⟨h1, h2⟩
      | cons p t ih =>
        intro acc1 acc2 h1 h2
        rw [List.foldl_cons, List.foldl_cons]
        unfold extractPathMethods
        obtain ⟨s1, s2⟩ := extractFold_materialize_congr mp m1 m2 p.1
          (listLookupD p.2 "parameters" (.jarr [])).items p.2 acc1 acc2 h1 h2
        exact ih _ _ s1 s2
    exact main paths ([], [], imports) ([], [], imports) rfl rfl
  · intro pt cp m o1 o2 imp1 imp2 ho1 ho2
    unfold buildMethodData
    dsimp only
    rw [ho1, ho2]
    simp only [Bool.false_eq_true, if_false]

/-- One listing order: ascending. -/
def listingAsc : Finset String → List String := fun s => s.sort (· ≤ ·)

/-- The opposite listing order: descending. -/
def listingDesc : Finset String → List String := fun s => (s.sort (· ≤ ·)).reverse

/-- A path item whose GET operation declares two path parameters. -/
def twoParamPathItem : List (String × JValue) :=
  [("get", .jobj [("operationId", .jstr "getItem"),
     ("parameters", .jarr [
        .jobj [("name", .jstr "aa"), ("in", .jstr "path"),
               ("schema", .jobj [("type", .jstr "string")])],
        .jobj [("name", .jstr "bb"), ("in", .jstr "path"),
               ("schema", .jobj [("type", .jstr "string")])]])])]

/-- A path table with a single two-path-parameter operation. -/
def twoParamPaths : List (String × List (String × JValue)) :=
  [("/items/\x7baa\x7d/\x7bbb\x7d", twoParamPathItem)]

theorem extract_pathParams_shape (mat : Finset String → List String) :
    (extractClientMethods "com.example.model" mat twoParamPaths ∅).1.map
      (fun md => md.pathParamsInSig) =
      [mat (insert (to_java_variable_name "bb")
        (insert (to_java_variable_name "aa") ∅))] := rfl

/-- Claim C9 counterexample: two valid listing orders of the
`path_params_in_sig` set — both legitimate CPython set iteration orders —
produce different extraction outputs on the same fixed input, so the
output is not a function of the input documents alone and two runs need
not be byte-identical. -/
theorem extract_set_order_cex :
    ValidListing listingAsc ∧ ValidListing listingDesc ∧
    extractClientMethods "com.example.model" listingAsc twoParamPaths ∅ ≠
      extractClientMethods "com.example.model" listingDesc twoParamPaths ∅ := by
  refine ⟨?_, ?_, ?_⟩
  · intro s
    exact ⟨Finset.sort_nodup _ s, fun x => Finset.mem_sort _⟩
  · intro s
    constructor
    · exact List.nodup_reverse.mpr (Finset.sort_nodup _ s)
    · intro x
      show x ∈ (s.sort (· ≤ ·)).reverse ↔ x ∈ s
      rw [List.mem_reverse]
      exact Finset.mem_sort _
  · intro h
    have h1 := extract_pathParams_shape listingAsc
    have h2 := extract_pathParams_shape listingDesc
    have h3 := (h1.symm.trans
      ((congrArg (fun t => t.1.map (fun md => md.pathParamsInSig)) h).trans h2))
    have h4 : listingAsc (insert (to_java_variable_name "bb")
        (insert (to_java_variable_name "aa") ∅)) =
      listingDesc (insert (to_java_variable_name "bb")
        (insert (to_java_variable_name "aa") ∅)) := by
      simpa using h3
    have hlen : ((insert (to_java_variable_name "bb")
        (insert (to_java_variable_name "aa") (∅ : Finset String))).sort (· ≤ ·)).length = 2 := by
      rw [Finset.length_sort]
      decide
    have hnd : ((insert (to_java_variable_name "bb")
        (insert (to_java_variable_name "aa") (∅ : Finset String))).sort (· ≤ ·)).Nodup :=
      Finset.sort_nodup _ _
    obtain ⟨a, b, hab⟩ := List.length_eq_two.mp hlen
    unfold listingAsc listingDesc at h4
    rw [hab] at h4 hnd
    simp only [List.reverse_cons, List.reverse_nil, List.nil_append,
      List.cons_append, List.cons.injEq] at h4
    rw [List.nodup_cons] at hnd
    exact hnd.1 (by simp [h4.1])

theorem extract_deterministic_modulo_set_order_witness :
    (extractClientMethods "com.example.model" listingAsc twoParamPaths ∅).1.map
        eraseListing =
      (extractClientMethods "com.example.model" listingDesc twoParamPaths ∅).1.map
        eraseListing ∧
    (buildMethodData "com.example.model" listingAsc "/items" [] "get"
        (.jobj []) ∅).2.1.1 =
      (buildMethodData "com.example.model" listingDesc "/items" [] "get"
        (.jobj [("summary", .jstr "list")]) ∅).2.1.1 := by
  have h := extract_deterministic_modulo_set_order "com.example.model"
    listingAsc listingDesc twoParamPaths ∅
  exact ⟨h.1.1, h.2 "/items" [] "get" (.jobj []) (.jobj [("summary", .jstr "list")])
    ∅ ∅ rfl rfl⟩
